import Mathlib

/-! # Verification of `src/simulation.py` (light–metal reflection simulation)

Shallow embedding of the computational core of `src/simulation.py`
(Drude dielectric model, generalized Snell refraction, Fresnel
reflectance, and the angle sweep), over exact real/complex arithmetic.

Modelling conventions:
* Python floats / complexes are modelled by `ℝ` / `ℂ`.
* A Python function call either returns a value or raises; this outcome is
  `Except PyExc _`.  Scalar (pure-Python) division raises
  `ZeroDivisionError` on a zero divisor; numpy array/scalar division does
  NOT raise (it yields IEEE `nan`/`inf` with only a runtime warning), so
  the Fresnel calculator, whose arithmetic is all numpy, always returns.
  At singular points Lean's total division (`x / 0 = 0`) stands in for the
  IEEE artifact value; no theorem relies on the value at such points.
* `np.sqrt` on a complex input is the principal square root; it is embedded
  by the closed real formula (the C99/numpy algorithm)
  `re = sqrt((|z| + Re z)/2)`, `im = sign(Im z) * sqrt((|z| - Re z)/2)`,
  which squares to `z` and has nonnegative real part.
* `np.sqrt` on a real input is the real square root (`Real.sqrt`), as in
  the source where `dielectric_constant` is a real.  For a negative real,
  numpy's real sqrt yields IEEE NaN; `Real.sqrt`'s junk value `0` stands
  in there, so theorems about the Fresnel calculator's output values
  restrict `dielectric_constant` to the NaN-free domain `0 ≤ d` (and the
  permittivity to be nonzero, since `n2 = 0` makes the internal Snell
  division a numpy `0/0` or `x/0`) wherever the distinction matters.
-/

namespace Simulation

noncomputable section

open scoped Classical

/-- Outcomes a call can fail with.  `zeroDivisionError` is Python's
`ZeroDivisionError` (scalar division by zero).  `domainError` and
`invalidInput` are the error kinds named by the specification; they are
included so that the spec's error-handling claims can be stated — the
source never defines or raises them. -/
inductive PyExc where
  | zeroDivisionError
  | domainError
  | invalidInput
  deriving DecidableEq

/-- Line 20: `c = 3e8  # m/s`. -/
def c : ℝ := 3e8

/-- Line 21: `PI = np.pi`. -/
def PI : ℝ := Real.pi

/-- Data model of one entry of `preset_metals` (spec §3
`MaterialOpticalParameters`). -/
structure MaterialOpticalParameters where
  omega_p : ℝ
  gamma : ℝ
  epsilon_inf : ℝ

/-- Lines 25–31: the preset Drude parameters table. -/
def preset_metals : List (String × MaterialOpticalParameters) :=
  [ ("gold",     ⟨1.37e16, 1.05e14, 9.84⟩),
    ("silver",   ⟨1.38e16, 2.73e13, 3.7⟩),
    ("copper",   ⟨1.32e16, 1.22e14, 10.8⟩),
    ("aluminum", ⟨2.24e16, 1.21e14, 1.0⟩),
    ("nickel",   ⟨1.83e16, 1.58e15, 1.0⟩) ]

/-- Embedding of `np.radians`: degrees to radians. -/
def radians (x : ℝ) : ℝ := x * (PI / 180)

/-- Embedding of `np.sqrt` on a complex argument: the principal square
root, by the closed real formula numpy implements.  Its square is the
argument (`csqrt_sq`) and its real part is nonnegative
(`csqrt_re_nonneg`), which characterises the principal branch. -/
def csqrt (z : ℂ) : ℂ :=
  ⟨Real.sqrt ((Complex.abs z + z.re) / 2),
   (if z.im < 0 then -1 else 1) * Real.sqrt ((Complex.abs z - z.re) / 2)⟩

/-- Lines 34–49: `dielectric_function`, the Drude model
`epsilon_inf - omega_p**2 / (omega**2 + 1j*gamma*omega)`.
All arithmetic here is pure-Python scalar arithmetic (the call sites pass
floats), so a zero denominator raises `ZeroDivisionError`. -/
def dielectric_function (omega omega_p gamma epsilon_inf : ℝ) : Except PyExc ℂ :=
  let denom : ℂ := (omega : ℂ) ^ 2 + Complex.I * (gamma : ℂ) * (omega : ℂ)
  if denom = 0 then .error .zeroDivisionError
  else .ok ((epsilon_inf : ℂ) - (omega_p : ℂ) ^ 2 / denom)

/-- Lines 52–63: `wavelength_to_omega`, nm → rad/s:
`lambda_input = lambda_input*1e-9; return 2*PI*c/lambda_input`.
Pure-Python float division raises `ZeroDivisionError` on a zero divisor;
there is no sign validation in the function body. -/
def wavelength_to_omega (lambda_input : ℝ) : Except PyExc ℝ :=
  let lambda_m : ℝ := lambda_input * 1e-9
  if lambda_m = 0 then .error .zeroDivisionError
  else .ok (2 * PI * c / lambda_m)

/-- Lines 71–84, the body of `fresnel_coefficients`: radians conversion,
`n1 = np.sqrt(dielectric_constant)` (real sqrt of a real),
`n2 = np.sqrt(complex_dielectric_function)` (principal complex sqrt),
Snell `sin_theta_t = n1*sin(theta_i)/n2`, `cos_theta_t = sqrt(1 - sin_theta_t**2)`,
then `r_s`, `r_p` and the power reflectances `np.abs(r)**2`. -/
def fresnel_pair (complex_dielectric_function : ℂ)
    (theta_i dielectric_constant : ℝ) : ℝ × ℝ :=
  let theta : ℝ := radians theta_i
  let n1 : ℝ := Real.sqrt dielectric_constant
  let n2 : ℂ := csqrt complex_dielectric_function
  let sin_theta_t : ℂ := (n1 : ℂ) * (Real.sin theta : ℂ) / n2
  let cos_theta_t : ℂ := csqrt (1 - sin_theta_t ^ 2)
  let cos_theta_i : ℝ := Real.cos theta
  let r_s : ℂ := ((n1 : ℂ) * (cos_theta_i : ℂ) - n2 * cos_theta_t) /
    ((n1 : ℂ) * (cos_theta_i : ℂ) + n2 * cos_theta_t)
  let r_p : ℂ := ((n1 : ℂ) * cos_theta_t - n2 * (cos_theta_i : ℂ)) /
    (n2 * (cos_theta_i : ℂ) + (n1 : ℂ) * cos_theta_t)
  (Complex.abs r_s ^ 2, Complex.abs r_p ^ 2)

/-- Lines 65–86: the outcome of calling `fresnel_coefficients`.  Every
operation in the body is numpy arithmetic (`n2` is a `numpy.complex128`,
which infects all later expressions), and numpy division by zero does not
raise — it emits a warning and produces `nan`/`inf` — so the call always
returns the computed pair `(R_s, R_p)`; no exception is possible. -/
def fresnel_coefficients (complex_dielectric_function : ℂ)
    (theta_i dielectric_constant : ℝ) : Except PyExc (ℝ × ℝ) :=
  .ok (fresnel_pair complex_dielectric_function theta_i dielectric_constant)

/-- The denominator of `r_s` on line 80: `n1*cos_theta_i + n2*cos_theta_t`,
with the intermediate quantities exactly as in `fresnel_pair`. -/
def fresnel_denom_s (complex_dielectric_function : ℂ)
    (theta_i dielectric_constant : ℝ) : ℂ :=
  let theta : ℝ := radians theta_i
  let n1 : ℝ := Real.sqrt dielectric_constant
  let n2 : ℂ := csqrt complex_dielectric_function
  let sin_theta_t : ℂ := (n1 : ℂ) * (Real.sin theta : ℂ) / n2
  let cos_theta_t : ℂ := csqrt (1 - sin_theta_t ^ 2)
  (n1 : ℂ) * (Real.cos theta : ℂ) + n2 * cos_theta_t

/-- The denominator of `r_p` on line 81: `n2*cos_theta_i + n1*cos_theta_t`,
with the intermediate quantities exactly as in `fresnel_pair`. -/
def fresnel_denom_p (complex_dielectric_function : ℂ)
    (theta_i dielectric_constant : ℝ) : ℂ :=
  let theta : ℝ := radians theta_i
  let n1 : ℝ := Real.sqrt dielectric_constant
  let n2 : ℂ := csqrt complex_dielectric_function
  let sin_theta_t : ℂ := (n1 : ℂ) * (Real.sin theta : ℂ) / n2
  let cos_theta_t : ℂ := csqrt (1 - sin_theta_t ^ 2)
  n2 * (Real.cos theta : ℂ) + (n1 : ℂ) * cos_theta_t

/-- Embedding of `np.linspace lo hi n` (default `endpoint=True`): `n`
evenly spaced points `lo + i*(hi-lo)/(n-1)`, the last one exactly `hi`. -/
def linspace (lo hi : ℝ) (n : ℕ) : List ℝ :=
  (List.range n).map fun i : ℕ => lo + (hi - lo) * (i : ℝ) / ((n : ℝ) - 1)

/-- Lines 133–145, the computational part of `plot_reflection_vs_angle`
(the sweep engine): compute `omega` and `epsilon` once, generate
`angles = np.linspace(angle_range[0], angle_range[1], 1000)`, and collect
`(angle, R_s, R_p)` per angle in grid order (the loop appends `R_s`, `R_p`
to two lists indexed by the same grid; the plotting of those lists is
outside the core).  `fresnel_coefficients` is called with the default
`dielectric_constant=1.0` and never raises, so the loop is a pure map. -/
def plot_reflection_vs_angle (omega_p gamma epsilon_inf wavelength_nm : ℝ)
    (angle_min angle_max : ℝ) : Except PyExc (List (ℝ × ℝ × ℝ)) :=
  (wavelength_to_omega wavelength_nm).bind fun omega =>
    (dielectric_function omega omega_p gamma epsilon_inf).bind fun epsilon =>
      .ok ((linspace angle_min angle_max 1000).map fun angle =>
        (angle, fresnel_pair epsilon angle 1.0))

/-- Written from the specification's words (§4.4 and claim C1), not from
the code: `n1 = sqrt(epsilon1)`, `n2 = sqrt(epsilon)`,
`sin_theta_t = n1*sin(theta_i)/n2`, `cos_t = sqrt(1 - sin_theta_t^2)`,
`r_s = (n1·cos_i − n2·cos_t)/(n1·cos_i + n2·cos_t)`,
`r_p = (n1·cos_t − n2·cos_i)/(n2·cos_i + n1·cos_t)`,
`R_s = |r_s|²`, `R_p = |r_p|²`, with `theta_i` in degrees and all square
roots principal-branch. -/
def fresnelSpec (epsilon : ℂ) (theta_i epsilon1 : ℝ) : ℝ × ℝ :=
  let n1 : ℂ := csqrt (epsilon1 : ℂ)
  let n2 : ℂ := csqrt epsilon
  let cos_i : ℂ := (Real.cos (radians theta_i) : ℂ)
  let sin_theta_t : ℂ := n1 * (Real.sin (radians theta_i) : ℂ) / n2
  let cos_t : ℂ := csqrt (1 - sin_theta_t ^ 2)
  let r_s : ℂ := (n1 * cos_i - n2 * cos_t) / (n1 * cos_i + n2 * cos_t)
  let r_p : ℂ := (n1 * cos_t - n2 * cos_i) / (n2 * cos_i + n1 * cos_t)
  (Complex.abs r_s ^ 2, Complex.abs r_p ^ 2)

/-! ## Helper lemmas about the principal complex square root -/

theorem abs_add_re_nonneg (z : ℂ) : 0 ≤ Complex.abs z + z.re := by
  have h1 := Complex.abs_re_le_abs z
  have h2 := neg_abs_le z.re
  linarith [abs_nonneg z.re]

theorem abs_sub_re_nonneg (z : ℂ) : 0 ≤ Complex.abs z - z.re := by
  have h1 := Complex.abs_re_le_abs z
  have h2 := le_abs_self z.re
  linarith

theorem csqrt_re (z : ℂ) :
    (csqrt z).re = Real.sqrt ((Complex.abs z + z.re) / 2) := rfl

theorem csqrt_im (z : ℂ) :
    (csqrt z).im = (if z.im < 0 then (-1 : ℝ) else 1) *
      Real.sqrt ((Complex.abs z - z.re) / 2) := rfl

theorem sq_abs_eq (z : ℂ) : Complex.abs z ^ 2 = z.re ^ 2 + z.im ^ 2 := by
  rw [Complex.sq_abs, Complex.normSq_apply]; ring

theorem csqrt_mul_self_aux (z : ℂ) :
    Real.sqrt ((Complex.abs z + z.re) / 2) *
      Real.sqrt ((Complex.abs z - z.re) / 2) = |z.im| / 2 := by
  rw [← Real.sqrt_mul (by linarith [abs_add_re_nonneg z])]
  have h1 : (Complex.abs z + z.re) / 2 * ((Complex.abs z - z.re) / 2) =
      (|z.im| / 2) ^ 2 := by
    have h0 := sq_abs_eq z
    have h2 : |z.im| ^ 2 = z.im ^ 2 := sq_abs z.im
    linear_combination h0 / 4 - h2 / 4
  rw [h1]
  exact Real.sqrt_sq (by positivity)

theorem csqrt_sq (z : ℂ) : csqrt z ^ 2 = z := by
  have ha := abs_add_re_nonneg z
  have hb := abs_sub_re_nonneg z
  have ha2 : Real.sqrt ((Complex.abs z + z.re) / 2) ^ 2 =
      (Complex.abs z + z.re) / 2 := Real.sq_sqrt (by linarith)
  have hb2 : Real.sqrt ((Complex.abs z - z.re) / 2) ^ 2 =
      (Complex.abs z - z.re) / 2 := Real.sq_sqrt (by linarith)
  have hab := csqrt_mul_self_aux z
  apply Complex.ext
  · rw [pow_two, Complex.mul_re, csqrt_re, csqrt_im]
    by_cases h : z.im < 0
    · rw [if_pos h]
      linear_combination ha2 - hb2
    · rw [if_neg h]
      linear_combination ha2 - hb2
  · rw [pow_two, Complex.mul_im, csqrt_re, csqrt_im]
    by_cases h : z.im < 0
    · rw [if_pos h]
      rw [abs_of_neg h] at hab
      linear_combination (-2 : ℝ) * hab
    · rw [if_neg h]
      push_neg at h
      rw [abs_of_nonneg h] at hab
      linear_combination (2 : ℝ) * hab

theorem csqrt_re_nonneg (z : ℂ) : 0 ≤ (csqrt z).re := Real.sqrt_nonneg _

theorem csqrt_im_nonneg_of_re_eq_zero (z : ℂ) (h : (csqrt z).re = 0) :
    0 ≤ (csqrt z).im := by
  rw [csqrt_re] at h
  have h1 : (Complex.abs z + z.re) / 2 ≤ 0 := Real.sqrt_eq_zero'.mp h
  have h2 := abs_add_re_nonneg z
  have h3 : Complex.abs z = -z.re := by linarith
  have h4 : z.im = 0 := by
    have h5 := sq_abs_eq z
    rw [h3] at h5
    have h6 : z.im ^ 2 = 0 := by nlinarith
    exact sq_eq_zero_iff.mp h6
  rw [csqrt_im, h4, if_neg (lt_irrefl (0 : ℝ)), one_mul]
  exact Real.sqrt_nonneg _

theorem csqrt_ofReal_nonneg (x : ℝ) (hx : 0 ≤ x) :
    csqrt (x : ℂ) = ((Real.sqrt x : ℝ) : ℂ) := by
  have habs : Complex.abs (x : ℂ) = x := by
    rw [Complex.abs_ofReal, abs_of_nonneg hx]
  apply Complex.ext
  · rw [csqrt_re, habs]
    simp only [Complex.ofReal_re]
    rw [show (x + x) / 2 = x by ring]
  · rw [csqrt_im, habs]
    simp only [Complex.ofReal_im, Complex.ofReal_re]
    rw [if_neg (lt_irrefl (0 : ℝ)), one_mul,
      show (x - x) / 2 = (0 : ℝ) by ring, Real.sqrt_zero]

theorem csqrt_one : csqrt 1 = 1 := by
  have h := csqrt_ofReal_nonneg 1 zero_le_one
  simpa using h

theorem csqrt_zero : csqrt 0 = 0 := by
  have h := csqrt_ofReal_nonneg 0 le_rfl
  simpa using h

/-! ## Helper lemmas about the pipeline functions -/

theorem drude_denom_ne_zero (omega gamma : ℝ) (h : omega ≠ 0) :
    ((omega : ℂ) ^ 2 + Complex.I * (gamma : ℂ) * (omega : ℂ)) ≠ 0 := by
  intro hd
  have hre := congrArg Complex.re hd
  simp only [pow_two, Complex.add_re, Complex.mul_re, Complex.mul_im,
    Complex.I_re, Complex.I_im, Complex.ofReal_re, Complex.ofReal_im,
    Complex.zero_re] at hre
  apply h
  nlinarith [hre]

theorem dielectric_function_ok (omega omega_p gamma epsilon_inf : ℝ)
    (h : omega ≠ 0) :
    dielectric_function omega omega_p gamma epsilon_inf =
      .ok ((epsilon_inf : ℂ) - (omega_p : ℂ) ^ 2 /
        ((omega : ℂ) ^ 2 + Complex.I * (gamma : ℂ) * (omega : ℂ))) := by
  simp only [dielectric_function]
  rw [if_neg (drude_denom_ne_zero omega gamma h)]

theorem wavelength_to_omega_ok (lam : ℝ) (h : lam ≠ 0) :
    wavelength_to_omega lam = .ok (2 * PI * c / (lam * 1e-9)) := by
  simp only [wavelength_to_omega]
  rw [if_neg]
  intro h0
  rcases mul_eq_zero.mp h0 with h1 | h1
  · exact h h1
  · norm_num at h1

theorem two_pi_c_pos : 0 < 2 * PI * c := by
  unfold PI c
  positivity

theorem radians_zero : radians 0 = 0 := by
  simp [radians]

/-- At normal incidence the code's two amplitude ratios coincide up to
commutation of the common denominator. -/
theorem fresnel_pair_normal (eps : ℂ) :
    fresnel_pair eps 0 1 =
      (Complex.abs ((1 - csqrt eps) / (1 + csqrt eps)) ^ 2,
       Complex.abs ((1 - csqrt eps) / (csqrt eps + 1)) ^ 2) := by
  simp only [fresnel_pair, radians_zero, Real.sin_zero, Real.cos_zero,
    Real.sqrt_one, Complex.ofReal_zero, Complex.ofReal_one, one_mul,
    mul_zero, zero_div, mul_one, ne_eq, OfNat.ofNat_ne_zero,
    not_false_eq_true, zero_pow, sub_zero, csqrt_one]

/-- Bound used for the normal-incidence claim: for an index with
nonnegative real part the normal-incidence power reflectance is at
most one. -/
theorem reflectance_le_one (n2 : ℂ) (hre : 0 ≤ n2.re) :
    Complex.abs ((1 - n2) / (1 + n2)) ^ 2 ≤ 1 := by
  have hne : (1 + n2) ≠ 0 := by
    intro h0
    have h1 := congrArg Complex.re h0
    simp only [Complex.add_re, Complex.one_re, Complex.zero_re] at h1
    linarith
  have hpos : 0 < Complex.abs (1 + n2) := Complex.abs.pos hne
  have hsq : Complex.abs (1 - n2) ^ 2 ≤ Complex.abs (1 + n2) ^ 2 := by
    rw [sq_abs_eq, sq_abs_eq]
    simp only [Complex.sub_re, Complex.sub_im, Complex.add_re,
      Complex.add_im, Complex.one_re, Complex.one_im]
    nlinarith [hre, sq_nonneg n2.im]
  have key : Complex.abs (1 - n2) ≤ Complex.abs (1 + n2) := by
    have h2 := Real.sqrt_le_sqrt hsq
    rwa [Real.sqrt_sq (Complex.abs.nonneg _),
      Real.sqrt_sq (Complex.abs.nonneg _)] at h2
  rw [map_div₀]
  have hdiv : Complex.abs (1 - n2) / Complex.abs (1 + n2) ≤ 1 :=
    (div_le_one hpos).mpr key
  nlinarith [div_nonneg (Complex.abs.nonneg (1 - n2)) (le_of_lt hpos), hdiv]

/-! ## Claim theorems -/

/-- C3: for `omega_p = 0` the Drude dielectric function reduces exactly to
`epsilon_inf` (zero imaginary part, zero correction term), for any
`gamma ≥ 0` and `omega > 0`. -/
theorem claim_C3_drude_omega_p_zero (omega gamma epsilon_inf : ℝ)
    (homega : 0 < omega) (hgamma : 0 ≤ gamma) :
    dielectric_function omega 0 gamma epsilon_inf =
      .ok ((epsilon_inf : ℝ) : ℂ) := by
  rw [dielectric_function_ok omega 0 gamma epsilon_inf (ne_of_gt homega)]
  simp

/-- Witness for C3 at `omega = 1`, `gamma = 0`, `epsilon_inf = 7`. -/
theorem claim_C3_witness :
    (0 : ℝ) < 1 ∧ (0 : ℝ) ≤ 0 ∧
      dielectric_function 1 0 0 7 = .ok ((7 : ℝ) : ℂ) :=
  ⟨by norm_num, le_refl 0,
    claim_C3_drude_omega_p_zero 1 0 7 (by norm_num) (le_refl 0)⟩

/-- C4, counterexample: at `omega = 0`, `gamma = 0` (here `omega_p = 0`,
`epsilon_inf = 5`) the code raises Python's `ZeroDivisionError`, not the
`DomainError` the claim asserts (no `DomainError` exists in the code). -/
theorem claim_C4_counterexample :
    dielectric_function 0 0 0 5 = .error .zeroDivisionError ∧
      dielectric_function 0 0 0 5 ≠ .error .domainError := by
  have h : dielectric_function 0 0 0 5 = .error .zeroDivisionError := by
    norm_num [dielectric_function]
  refine ⟨h, ?_⟩
  rw [h]
  intro hc
  injection hc with hc2
  exact PyExc.noConfusion hc2

/-- C4, amended: with `omega = 0` and `gamma = 0` the denominator
`omega**2 + 1j*gamma*omega` is exactly zero and the complex scalar
division raises `ZeroDivisionError` — a loud failure, not a silent
`NaN`/`Inf` — for every `omega_p` and `epsilon_inf`. -/
theorem claim_C4_amended (omega_p epsilon_inf : ℝ) :
    dielectric_function 0 omega_p 0 epsilon_inf =
      .error .zeroDivisionError := by
  norm_num [dielectric_function]

/-- C6, counterexample: `wavelength_to_omega (-500)` returns normally (a
negative frequency) instead of failing with `InvalidInput`; the function
body has no sign validation. -/
theorem claim_C6_counterexample :
    (wavelength_to_omega (-500)).isOk = true ∧
      wavelength_to_omega (-500) ≠ .error .invalidInput := by
  have h : wavelength_to_omega (-500) =
      .ok (2 * PI * c / ((-500) * 1e-9)) :=
    wavelength_to_omega_ok (-500) (by norm_num)
  rw [h]
  exact ⟨rfl, by simp⟩

/-- C6, amended: for `lambda_nm > 0` the function returns exactly
`2*pi*c/(lambda_nm*1e-9)` with `c = 3e8`, a positive real; it performs no
input validation: for `lambda_nm < 0` it returns a negative frequency
without failing, and for `lambda_nm = 0` it raises `ZeroDivisionError`
(never `InvalidInput`; the wavelength-positivity check lives in `main`,
outside this function). -/
theorem claim_C6_amended (lam : ℝ) :
    (0 < lam → wavelength_to_omega lam = .ok (2 * PI * c / (lam * 1e-9)) ∧
      0 < 2 * PI * c / (lam * 1e-9)) ∧
    (lam < 0 → wavelength_to_omega lam = .ok (2 * PI * c / (lam * 1e-9)) ∧
      2 * PI * c / (lam * 1e-9) < 0) ∧
    (lam = 0 → wavelength_to_omega lam = .error .zeroDivisionError) := by
  refine ⟨fun h => ⟨wavelength_to_omega_ok lam (ne_of_gt h), ?_⟩,
    fun h => ⟨wavelength_to_omega_ok lam (ne_of_lt h), ?_⟩, fun h => ?_⟩
  · exact div_pos two_pi_c_pos (by nlinarith)
  · exact div_neg_of_pos_of_neg two_pi_c_pos (by nlinarith)
  · subst h
    simp [wavelength_to_omega]

/-- Witness for C6 (amended) at `lambda_nm = 500`. -/
theorem claim_C6_witness :
    wavelength_to_omega 500 = .ok (2 * PI * c / (500 * 1e-9)) ∧
      0 < 2 * PI * c / (500 * 1e-9) :=
  (claim_C6_amended 500).1 (by norm_num)

/-- C8: the sweep is deterministic — two calls with identical material
parameters, wavelength and angle bounds produce identical sample
sequences (the embedding is a pure function of its arguments; the source
has no mutable state feeding this computation). -/
theorem claim_C8_deterministic
    (p1 g1 e1 w1 lo1 hi1 p2 g2 e2 w2 lo2 hi2 : ℝ)
    (hp : p1 = p2) (hg : g1 = g2) (he : e1 = e2) (hw : w1 = w2)
    (hlo : lo1 = lo2) (hhi : hi1 = hi2) :
    plot_reflection_vs_angle p1 g1 e1 w1 lo1 hi1 =
      plot_reflection_vs_angle p2 g2 e2 w2 lo2 hi2 := by
  subst hp; subst hg; subst he; subst hw; subst hlo; subst hhi; rfl

/-- Witness for C8 with the gold preset at 600 nm over `[0, 90]`. -/
theorem claim_C8_witness :
    plot_reflection_vs_angle 1.37e16 1.05e14 9.84 600 0 90 =
      plot_reflection_vs_angle 1.37e16 1.05e14 9.84 600 0 90 :=
  claim_C8_deterministic 1.37e16 1.05e14 9.84 600 0 90
    1.37e16 1.05e14 9.84 600 0 90 rfl rfl rfl rfl rfl rfl

/-- C9: the complex square root used by the refraction solver (for
`n2 = sqrt(epsilon)` and `cos_theta_t = sqrt(1 - sin_theta_t^2)`) is the
principal branch: nonnegative real part for every complex input, and
nonnegative imaginary part whenever the real part is zero. -/
theorem claim_C9_principal_branch (z : ℂ) :
    0 ≤ (csqrt z).re ∧ ((csqrt z).re = 0 → 0 ≤ (csqrt z).im) :=
  ⟨csqrt_re_nonneg z, csqrt_im_nonneg_of_re_eq_zero z⟩

/-- Witness for C9 on the branch cut: `csqrt (-1)` has zero real part and
nonnegative imaginary part. -/
theorem claim_C9_witness :
    (csqrt (-1)).re = 0 ∧ 0 ≤ (csqrt (-1)).im := by
  have h1 : Complex.abs (-1) = 1 := by
    rw [show ((-1) : ℂ) = (((-1 : ℝ)) : ℂ) by push_cast; ring,
      Complex.abs_ofReal]
    norm_num
  have hre : (csqrt (-1)).re = 0 := by
    rw [csqrt_re, h1]
    norm_num
  exact ⟨hre, (claim_C9_principal_branch (-1)).2 hre⟩

/-- C10: on the program's NaN-free domain — nonnegative incident
dielectric constant (`np.sqrt` of a negative real is NaN), nonzero
permittivity (`n2 = 0` makes the internal Snell division a numpy `0/0`
or `x/0`), and neither Fresnel denominator zero — the calculator
returns a pair of real reflectances and each is nonnegative (a squared
complex modulus).  Outside this domain the program propagates IEEE
NaN/Inf, which the real-number embedding cannot represent, so the
theorem does not quantify there. -/
theorem claim_C10_reflectance_nonneg (eps : ℂ) (theta_i d : ℝ)
    (hd : 0 ≤ d) (heps : eps ≠ 0)
    (hs : fresnel_denom_s eps theta_i d ≠ 0)
    (hp : fresnel_denom_p eps theta_i d ≠ 0) :
    ∃ Rs Rp, fresnel_coefficients eps theta_i d = .ok (Rs, Rp) ∧
      0 ≤ Rs ∧ 0 ≤ Rp := by
  refine ⟨(fresnel_pair eps theta_i d).1, (fresnel_pair eps theta_i d).2,
    rfl, ?_, ?_⟩
  · simp only [fresnel_pair]
    positivity
  · simp only [fresnel_pair]
    positivity

/-! ## Evaluation lemmas at concrete inputs -/

theorem fresnel_denom_s_eval : fresnel_denom_s 1 0 1 = 2 := by
  simp only [fresnel_denom_s, radians_zero, Real.sin_zero, Real.cos_zero,
    Real.sqrt_one, Complex.ofReal_zero, Complex.ofReal_one, one_mul,
    mul_zero, zero_div, ne_eq, OfNat.ofNat_ne_zero, not_false_eq_true,
    zero_pow, sub_zero, csqrt_one, mul_one]
  norm_num

theorem fresnel_denom_p_eval : fresnel_denom_p 1 0 1 = 2 := by
  simp only [fresnel_denom_p, radians_zero, Real.sin_zero, Real.cos_zero,
    Real.sqrt_one, Complex.ofReal_zero, Complex.ofReal_one, one_mul,
    mul_zero, zero_div, ne_eq, OfNat.ofNat_ne_zero, not_false_eq_true,
    zero_pow, sub_zero, csqrt_one, mul_one]
  norm_num

theorem radians_ninety : radians 90 = Real.pi / 2 := by
  unfold radians PI
  ring

theorem fresnel_denom_s_90 : fresnel_denom_s 1 90 1 = 0 := by
  simp only [fresnel_denom_s, radians_ninety, Real.sin_pi_div_two,
    Real.cos_pi_div_two, Real.sqrt_one, Complex.ofReal_one,
    Complex.ofReal_zero, one_mul, mul_one, csqrt_one, div_one, one_pow,
    sub_self, csqrt_zero, mul_zero, add_zero, zero_add]

theorem fresnel_denom_p_90 : fresnel_denom_p 1 90 1 = 0 := by
  simp only [fresnel_denom_p, radians_ninety, Real.sin_pi_div_two,
    Real.cos_pi_div_two, Real.sqrt_one, Complex.ofReal_one,
    Complex.ofReal_zero, one_mul, mul_one, csqrt_one, div_one, one_pow,
    sub_self, csqrt_zero, mul_zero, add_zero, zero_add]

/-! ## Remaining claim theorems -/

/-- Witness for C10 at `epsilon = 1`, `theta_i = 0`, `epsilon1 = 1`, where
both denominators equal `2` and all hypotheses hold concretely. -/
theorem claim_C10_witness :
    (0 : ℝ) ≤ 1 ∧ (1 : ℂ) ≠ 0 ∧
      fresnel_denom_s 1 0 1 ≠ 0 ∧ fresnel_denom_p 1 0 1 ≠ 0 ∧
      ∃ Rs Rp, fresnel_coefficients 1 0 1 = .ok (Rs, Rp) ∧
        0 ≤ Rs ∧ 0 ≤ Rp := by
  have hs : fresnel_denom_s 1 0 1 ≠ 0 := by
    rw [fresnel_denom_s_eval]; norm_num
  have hp : fresnel_denom_p 1 0 1 ≠ 0 := by
    rw [fresnel_denom_p_eval]; norm_num
  exact ⟨zero_le_one, one_ne_zero, hs, hp,
    claim_C10_reflectance_nonneg 1 0 1 zero_le_one one_ne_zero hs hp⟩

/-- C1: for every complex permittivity, incidence angle (degrees) and
nonnegative incident dielectric constant, `fresnel_coefficients` returns
exactly the specification's formulas — same sign/operand ordering for
`r_s` and `r_p` (including the non-textbook `r_p`), with
`R_s = |r_s|^2`, `R_p = |r_p|^2`. -/
theorem claim_C1_fresnel_formulas (eps : ℂ) (theta_i eps1 : ℝ)
    (h : 0 ≤ eps1) :
    fresnel_coefficients eps theta_i eps1 =
      .ok (fresnelSpec eps theta_i eps1) := by
  simp only [fresnel_coefficients, fresnel_pair, fresnelSpec,
    csqrt_ofReal_nonneg eps1 h]

/-- Witness for C1 at `epsilon = -2`, `theta_i = 60`, `epsilon1 = 1`. -/
theorem claim_C1_witness :
    (0 : ℝ) ≤ 1 ∧ fresnel_coefficients (-2) 60 1 =
      .ok (fresnelSpec (-2) 60 1) :=
  ⟨zero_le_one, claim_C1_fresnel_formulas (-2) 60 1 zero_le_one⟩

/-- C5, counterexample: at `epsilon = 1`, `theta_i = 90`, `epsilon1 = 1`
(identical lossless media at grazing incidence) both Fresnel denominators
are exactly zero, yet the calculator does not fail with `DomainError`: it
returns normally (in IEEE arithmetic the division produces `nan` silently,
with only a numpy warning; no `DomainError` exists in the code). -/
theorem claim_C5_counterexample :
    fresnel_denom_s 1 90 1 = 0 ∧ fresnel_denom_p 1 90 1 = 0 ∧
      fresnel_coefficients 1 90 1 ≠ .error .domainError := by
  refine ⟨fresnel_denom_s_90, fresnel_denom_p_90, ?_⟩
  intro hc
  exact Except.noConfusion hc

/-- C5, amended: the calculator performs no zero-denominator guard at all —
for every input, including inputs whose denominators are exactly zero, the
call returns normally (numpy division by zero yields IEEE `nan`/`inf`
silently); it can never fail with `DomainError`. -/
theorem claim_C5_amended (eps : ℂ) (theta_i d : ℝ) :
    (fresnel_coefficients eps theta_i d).isOk = true := rfl

/-- The angle grid of the sweep, with the numeral denominator spelled
out. -/
theorem linspace_map_eq (lo hi : ℝ) :
    linspace lo hi 1000 =
      (List.range 1000).map fun i : ℕ => lo + (hi - lo) * (i : ℝ) / 999 := by
  unfold linspace
  apply List.map_congr_left
  intro i _
  norm_num

/-- For positive wavelength the sweep succeeds and is the map of the
per-angle Fresnel computation over the 1000-point grid. -/
theorem sweep_ok (omega_p gamma epsilon_inf wavelength_nm lo hi : ℝ)
    (hw : 0 < wavelength_nm) :
    ∃ E : ℂ,
      plot_reflection_vs_angle omega_p gamma epsilon_inf wavelength_nm lo hi
        = .ok ((linspace lo hi 1000).map fun angle =>
            (angle, fresnel_pair E angle 1.0)) := by
  have hwne : wavelength_nm ≠ 0 := ne_of_gt hw
  have homega : (0 : ℝ) < 2 * PI * c / (wavelength_nm * 1e-9) :=
    div_pos two_pi_c_pos (by positivity)
  refine ⟨(epsilon_inf : ℂ) - (omega_p : ℂ) ^ 2 /
      (((2 * PI * c / (wavelength_nm * 1e-9) : ℝ) : ℂ) ^ 2 +
        Complex.I * (gamma : ℂ) *
          ((2 * PI * c / (wavelength_nm * 1e-9) : ℝ) : ℂ)), ?_⟩
  unfold plot_reflection_vs_angle
  rw [wavelength_to_omega_ok wavelength_nm hwne]
  simp only [Except.bind]
  rw [dielectric_function_ok _ omega_p gamma epsilon_inf (ne_of_gt homega)]

/-- C2: for positive wavelength and `angle_min < angle_max` the sweep
returns exactly 1000 samples (the `np.linspace` grid size used by the
code), whose angles form the evenly spaced ascending grid
`angle_min + i*(angle_max - angle_min)/999`, with first angle
`angle_min`, last angle `angle_max`, and strictly ascending order
preserved in the output sequence. -/
theorem claim_C2_sweep_grid
    (omega_p gamma epsilon_inf wavelength_nm lo hi : ℝ)
    (hw : 0 < wavelength_nm) (hlt : lo < hi) :
    ∃ samples : List (ℝ × ℝ × ℝ),
      plot_reflection_vs_angle omega_p gamma epsilon_inf wavelength_nm lo hi
        = .ok samples ∧
      samples.length = 1000 ∧
      samples.map Prod.fst =
        (List.range 1000).map (fun i : ℕ => lo + (hi - lo) * (i : ℝ) / 999) ∧
      (samples.map Prod.fst).head? = some lo ∧
      (samples.map Prod.fst).getLast? = some hi ∧
      (samples.map Prod.fst).Pairwise (fun a b => a < b) := by
  obtain ⟨E, hE⟩ := sweep_ok omega_p gamma epsilon_inf wavelength_nm lo hi hw
  have hangles :
      (((linspace lo hi 1000).map fun angle =>
          ((angle, fresnel_pair E angle 1.0) : ℝ × ℝ × ℝ)).map Prod.fst) =
        (List.range 1000).map (fun i : ℕ => lo + (hi - lo) * (i : ℝ) / 999) := by
    rw [List.map_map]
    have hcomp : (Prod.fst ∘ fun angle : ℝ =>
        ((angle, fresnel_pair E angle 1.0) : ℝ × ℝ × ℝ)) = fun angle => angle := by
      funext a; rfl
    rw [hcomp, show (fun angle : ℝ => angle) = id from rfl, List.map_id]
    exact linspace_map_eq lo hi
  refine ⟨_, hE, ?_, hangles, ?_, ?_, ?_⟩
  · simp [linspace]
  · rw [hangles, show (1000 : ℕ) = 999 + 1 by norm_num,
      List.range_succ_eq_map, List.map_cons, List.head?_cons]
    norm_num
  · rw [hangles, show (1000 : ℕ) = 999 + 1 by norm_num, List.range_succ,
      List.map_append, List.map_cons, List.map_nil, List.getLast?_concat]
    have h999 : lo + (hi - lo) * ((999 : ℕ) : ℝ) / 999 = hi := by
      push_cast
      field_simp
    rw [h999]
  · rw [hangles, List.pairwise_map]
    refine List.Pairwise.imp ?_ (List.pairwise_lt_range 1000)
    intro i j hij
    have hcast : (i : ℝ) < j := Nat.cast_lt.mpr hij
    have hpos : (0 : ℝ) < hi - lo := sub_pos.mpr hlt
    apply add_lt_add_left
    exact (div_lt_div_iff_of_pos_right (by norm_num : (0:ℝ) < 999)).mpr
      (mul_lt_mul_of_pos_left hcast hpos)

/-- Witness for C2 with the gold preset at 600 nm over `[0, 90]`. -/
theorem claim_C2_witness :
    (0 : ℝ) < 600 ∧ (0 : ℝ) < 90 ∧
    ∃ samples : List (ℝ × ℝ × ℝ),
      plot_reflection_vs_angle 1.37e16 1.05e14 9.84 600 0 90
        = .ok samples ∧
      samples.length = 1000 ∧
      samples.map Prod.fst =
        (List.range 1000).map (fun i : ℕ => 0 + (90 - 0) * (i : ℝ) / 999) ∧
      (samples.map Prod.fst).head? = some 0 ∧
      (samples.map Prod.fst).getLast? = some 90 ∧
      (samples.map Prod.fst).Pairwise (fun a b => a < b) :=
  ⟨by norm_num, by norm_num,
    claim_C2_sweep_grid 1.37e16 1.05e14 9.84 600 0 90
      (by norm_num) (by norm_num)⟩

/-- C7: for the gold preset at 600 nm and normal incidence the two power
reflectances agree (here: exactly, hence within `1e-9`) and both lie in
`[0, 1]`. -/
theorem claim_C7_normal_incidence_gold :
    ∃ (m : MaterialOpticalParameters) (omega : ℝ) (epsilon : ℂ)
      (Rs Rp : ℝ),
      ("gold", m) ∈ preset_metals ∧
      wavelength_to_omega 600 = .ok omega ∧
      dielectric_function omega m.omega_p m.gamma m.epsilon_inf
        = .ok epsilon ∧
      fresnel_coefficients epsilon 0 1 = .ok (Rs, Rp) ∧
      |Rs - Rp| ≤ 1e-9 ∧ 0 ≤ Rs ∧ Rs ≤ 1 ∧ 0 ≤ Rp ∧ Rp ≤ 1 := by
  have hmem : ("gold",
      (⟨1.37e16, 1.05e14, 9.84⟩ : MaterialOpticalParameters))
        ∈ preset_metals := by
    simp only [preset_metals]
    exact List.mem_cons_self _ _
  have homega_pos : (0 : ℝ) < 2 * PI * c / (600 * 1e-9) :=
    div_pos two_pi_c_pos (by norm_num)
  have hw : wavelength_to_omega 600 = .ok (2 * PI * c / (600 * 1e-9)) :=
    wavelength_to_omega_ok 600 (by norm_num)
  obtain ⟨E, hE⟩ : ∃ E, dielectric_function (2 * PI * c / (600 * 1e-9))
      1.37e16 1.05e14 9.84 = .ok E :=
    ⟨_, dielectric_function_ok _ _ _ _ (ne_of_gt homega_pos)⟩
  have hn2 : 0 ≤ (csqrt E).re := csqrt_re_nonneg E
  have hpair := fresnel_pair_normal E
  have hfst : (fresnel_pair E 0 1).1 =
      Complex.abs ((1 - csqrt E) / (1 + csqrt E)) ^ 2 := by
    rw [hpair]
  have hsnd : (fresnel_pair E 0 1).2 =
      Complex.abs ((1 - csqrt E) / (1 + csqrt E)) ^ 2 := by
    rw [hpair, add_comm]
  refine ⟨⟨1.37e16, 1.05e14, 9.84⟩, 2 * PI * c / (600 * 1e-9), E,
    (fresnel_pair E 0 1).1, (fresnel_pair E 0 1).2,
    hmem, hw, hE, rfl, ?_, ?_, ?_, ?_, ?_⟩
  · rw [hfst, hsnd, sub_self, abs_zero]
    norm_num
  · rw [hfst]; positivity
  · rw [hfst]; exact reflectance_le_one (csqrt E) hn2
  · rw [hsnd]; positivity
  · rw [hsnd]; exact reflectance_le_one (csqrt E) hn2

end

end Simulation
